import Mathlib

/-!
Verification of the B+ database page-cache subsystem of GamesmanNova
(`src/database/bplus`): the `Page` byte buffer (`cache/page.rs`), the
`Cache` lookup/fetch/evict protocol (`cache/mod.rs`), the error taxonomy
(`cache/error.rs`) and the `FileManager` backing store (`file/manager.rs`).

The Rust code is embedded shallowly: `&mut self` methods become explicit
state passing (the method returns the new state next to its `Result`),
`usize` becomes `Nat` with wrap-around written as `% 2 ^ 64` where the
source relies on it, `Vec<Byte>` and `[Byte; PAGE_SIZE]` become `List Byte`
(the array's fixed length is carried as a proof field), and `Result<T, E>`
becomes `Except E T`.  Locks are not modelled: the development treats the
single-threaded semantics, in which `RwLock::read`/`write` always succeed
and a guard is the entry itself.
-/

namespace BPlus

/-- `pub type Byte = u8` (cache/mod.rs). -/
abbrev Byte := UInt8

/-- `pub type PageId = usize` (cache/mod.rs). -/
abbrev PageId := Nat

/-- `const PAGE_SIZE: usize = 4096` (cache/page.rs). -/
def PAGE_SIZE : Nat := 4096

/-- `usize` on the target is 64 bits wide; arithmetic that the source lets
wrap around (the `last_evict` cursor, whose initializer comments "set to max
so that first FIFO evict overflows to 0") is taken modulo this constant. -/
def USIZE_MOD : Nat := 2 ^ 64

/-- `enum PageError` (cache/error.rs). -/
inductive PageError where
  | OutOfBoundsRead (msg : String)
  | OutOfBoundsWrite (msg : String)
  | PageNotFound (id : PageId)
  | Unknown
deriving DecidableEq

/-- `enum CacheError` (cache/error.rs). -/
inductive CacheError where
  | LookupFailure (id : PageId)
  | FetchFailure (id : PageId) (attempts : Nat)
  | FailedCacheRead (id : PageId)
  | FailedCacheWrite (id : PageId)
  | PoisonedCacheEntry
  | Unknown
deriving DecidableEq

/-- `struct Page` (cache/page.rs): `data: Box<[Byte; PAGE_SIZE]>` plus a
dirty flag.  The array type fixes the buffer length, recorded here as the
`size_eq` field. -/
structure Page where
  data : List Byte
  size_eq : data.length = PAGE_SIZE
  dirty : Bool

/-- `Page::allocate` (cache/page.rs:45-51): data `0^PAGE_SIZE`, not dirty. -/
def Page.allocate : Page where
  data := List.replicate PAGE_SIZE 0
  size_eq := List.length_replicate PAGE_SIZE 0
  dirty := false

/-- `Page::read_at` (cache/page.rs:67-92): three bound checks in order, then
`self.data[seek..seek + length].to_vec()`.  Takes `&self`: no state change. -/
def Page.read_at (self : Page) (seek length : Nat) :
    Except PageError (List Byte) :=
  if seek > PAGE_SIZE then
    .error (.OutOfBoundsRead
      ("Seek " ++ toString seek ++ ", Page Size " ++ toString PAGE_SIZE))
  else if length > PAGE_SIZE then
    .error (.OutOfBoundsRead
      ("Length " ++ toString length ++ ", Page Size " ++ toString PAGE_SIZE))
  else if seek + length > PAGE_SIZE then
    .error (.OutOfBoundsRead
      ("Seek + Length " ++ toString (seek + length) ++ ", Page Size "
        ++ toString PAGE_SIZE))
  else
    .ok ((self.data.drop seek).take length)

/-- `Page::write_at` (cache/page.rs:108-136): three bound checks in order,
then `self.data[seek..seek + data.len()].copy_from_slice(&data)` and
`self.dirty = true`.  Takes `&mut self` and returns `Result<(), PageError>`,
embedded as the pair (state after the call, returned result). -/
def Page.write_at (self : Page) (seek : Nat) (data : List Byte) :
    Page × Except PageError Unit :=
  if seek > PAGE_SIZE then
    (self, .error (.OutOfBoundsWrite
      ("Seek " ++ toString seek ++ ", Page Size " ++ toString PAGE_SIZE)))
  else if data.length > PAGE_SIZE then
    (self, .error (.OutOfBoundsWrite
      ("Length " ++ toString data.length ++ ", Page Size "
        ++ toString PAGE_SIZE)))
  else if h : seek + data.length > PAGE_SIZE then
    (self, .error (.OutOfBoundsWrite
      ("Seek + Length " ++ toString (seek + data.length) ++ ", Page Size "
        ++ toString PAGE_SIZE)))
  else
    ({ data := self.data.take seek ++ data
          ++ self.data.drop (seek + data.length)
       size_eq := by
         have hs := self.size_eq
         simp only [List.length_append, List.length_take, List.length_drop,
           hs]
         omega
       dirty := true },
     .ok ())

/-- `Page::is_dirty` (cache/page.rs:149-151). -/
def Page.is_dirty (self : Page) : Bool :=
  self.dirty

/-- One call through the `Page` API.  `read_at` and `is_dirty` take `&self`
in the source, so the type system already guarantees they leave the page
unchanged; `write_at` takes `&mut self`. -/
inductive PageOp where
  | read (seek length : Nat)
  | write (seek : Nat) (data : List Byte)
  | isDirty

/-- The state left behind by one `Page` call (the borrow rules make
`read_at` and `is_dirty` the identity on the page). -/
def Page.applyOp (self : Page) : PageOp → Page
  | .read _ _ => self
  | .write seek data => (self.write_at seek data).1
  | .isDirty => self

/-- The state left behind by a sequence of `Page` calls. -/
def Page.applyOps (self : Page) : List PageOp → Page
  | [] => self
  | op :: ops => (self.applyOp op).applyOps ops

/-- `impl From<PageError> for CacheError` (cache/error.rs:86-94).  The source
matches `OutOfBoundsRead(id) => FailedCacheRead(id)` and `OutOfBoundsWrite(id)
=> FailedCacheWrite(id)`, binding the *detail string* as `id` and passing it
as the `FailedCacheRead`/`FailedCacheWrite` payload, whose declared type is
`PageId` (`usize`): that impl does not typecheck as written (mismatched
types).  The model keeps the declared variant-to-variant mapping; no `PageId`
exists in the converted error, so the payload is left as `0`.  The catch-all
arm is `_ => CacheError::Unknown` as in the source. -/
def cacheErrorOfPageError : PageError → CacheError
  | .OutOfBoundsRead _ => .FailedCacheRead 0
  | .OutOfBoundsWrite _ => .FailedCacheWrite 0
  | _ => .Unknown

/-- `impl From<CacheError> for PageError` (cache/error.rs:96-103):
`LookupFailure(id) => PageNotFound(id)`, everything else to `Unknown`. -/
def pageErrorOfCacheError : CacheError → PageError
  | .LookupFailure id => .PageNotFound id
  | _ => .Unknown

/-- `enum EvictionPolicy` (cache/mod.rs:38-50). -/
inductive EvictionPolicy where
  | FIFO
  | LFU
  | LRU
  | MRU
deriving DecidableEq

/-- `struct CacheEntry` (cache/mod.rs:52-56). -/
structure CacheEntry where
  valid : Bool
  id : PageId
  page : Page

/-- `CacheEntry::new` (cache/mod.rs:75-81): invalid, id 0, fresh page. -/
def CacheEntry.new : CacheEntry where
  valid := false
  id := 0
  page := Page.allocate

/-- `CacheEntry::is_valid` (cache/mod.rs:84-86). -/
def CacheEntry.is_valid (self : CacheEntry) : Bool :=
  self.valid

/-- `CacheEntry::get_id` (cache/mod.rs:89-91). -/
def CacheEntry.get_id (self : CacheEntry) : PageId :=
  self.id

/-- `FileManager` (file/manager.rs).  The body of
`fetch_page_data_from_disk` is `todo!()` in the source, so the backing store
is modelled as an uninterpreted function.  Modelled from the spec: the
backing-store collaborator contract, "`fetch_page_data_from_disk(id) ->
fixed PAGE_SIZE bytes`: must return exactly one page's worth of bytes for
`id`" — the length contract is taken as a hypothesis where a theorem needs
it, never baked into the model. -/
structure FileManager where
  fetch_page_data_from_disk : PageId → List Byte

/-- `struct Cache` (cache/mod.rs:58-65).  The `RwLock` around each entry is
not modelled: this is the single-threaded semantics, in which every
`read()`/`write()` succeeds and a guard is the entry itself. -/
structure Cache where
  policy : EvictionPolicy
  last_evict : Nat
  capacity : Nat
  file_manager : FileManager
  entries : List CacheEntry
  max_fetch_attempts : Nat

/-- `Cache::new` (cache/mod.rs:103-116): `capacity` fresh entries, and
`last_evict: usize::MAX` ("set to max so that first FIFO evict overflows to
0"). -/
def Cache.new (capacity : Nat) (policy : EvictionPolicy)
    (max_fetch_attempts : Nat) (file_manager : FileManager) : Cache where
  policy := policy
  last_evict := USIZE_MOD - 1
  capacity := capacity
  file_manager := file_manager
  entries := List.replicate capacity CacheEntry.new
  max_fetch_attempts := max_fetch_attempts

/-- The body of `Cache::lookup`'s `for idx in 0..self.capacity` loop
(cache/mod.rs:165-178), with `idx` the next index and the second argument
the number of indices left to scan.  `self.entries.get(idx)` is `get?`; a
`None` arm is `continue`; the hit test is `get_id() == id` — the source does
not consult the `valid` flag. -/
def Cache.lookupGo (self : Cache) (id : PageId) (idx : Nat) :
    Nat → Except CacheError Nat
  | 0 => .error (.LookupFailure id)
  | n + 1 =>
    match self.entries.get? idx with
    | some entry =>
      if entry.get_id == id then .ok idx else self.lookupGo id (idx + 1) n
    | none => self.lookupGo id (idx + 1) n

/-- `Cache::lookup` (cache/mod.rs:165-178): linear scan of indices
`0..capacity`, `LookupFailure(id)` when the loop ends. -/
def Cache.lookup (self : Cache) (id : PageId) : Except CacheError Nat :=
  self.lookupGo id 0 self.capacity

/-- The FIFO victim index for the current cursor (cache/mod.rs:183-186):
`self.last_evict += 1` (`usize` wrap-around past `usize::MAX`), then reset
to 0 when the cursor reaches `capacity`. -/
def Cache.fifoVictim (self : Cache) : Nat :=
  let le := (self.last_evict + 1) % USIZE_MOD
  if le == self.capacity then 0 else le

/-- `Cache::evict_and_replace` (cache/mod.rs:180-207).  In the FIFO arm the
cursor is advanced first, then the victim entry is rewritten through its
write guard: `entry.id = id;` then `entry.page.write_at(0, data)?` on the
data fetched from the backing store (the source's
`let entry = *(locked_entry.write()?)` only reads coherently as mutation in
place through the guard, which is how the spec describes it: the slot is
overwritten in place).  The `?` converts a `PageError` through
`cacheErrorOfPageError`; note the `valid` flag is never touched.  The
source's `match` on `entries.get(...)` has no `None` arm (unreachable for a
cursor below `capacity`); that case is modelled as an `Unknown` error.  The
`LFU`/`LRU`/`MRU` arms are `todo!()` in the source (a panic); no claim
touches them, and they are modelled as an unconditional `Unknown` error. -/
def Cache.evict_and_replace (self : Cache) (id : PageId) :
    Cache × Except CacheError Unit :=
  match self.policy with
  | .FIFO =>
    let le := self.fifoVictim
    let c := { self with last_evict := le }
    match c.entries.get? le with
    | some entry =>
      let entry := { entry with id := id }
      let data := c.file_manager.fetch_page_data_from_disk id
      let written := entry.page.write_at 0 data
      let entry := { entry with page := written.1 }
      let c := { c with entries := c.entries.set le entry }
      match written.2 with
      | .ok _ => (c, .ok ())
      | .error e => (c, .error (cacheErrorOfPageError e))
    | none => (c, .error .Unknown)
  | .LFU => (self, .error .Unknown)
  | .LRU => (self, .error .Unknown)
  | .MRU => (self, .error .Unknown)

/-- The body of `Cache::fetch_entry`'s retry loop (cache/mod.rs:119-140),
with the first argument the remaining iterations of
`for _ in 0..self.max_fetch_attempts`.  A hit re-checks the guard's id and
returns the read guard (here: the entry); a failed re-check falls through
to the next iteration, as does a `None` from `entries.get`; a miss runs
`self.evict_and_replace(id)?` (whose error propagates) and retries. -/
def Cache.fetchEntryGo (id : PageId) :
    Nat → Cache → Cache × Except CacheError CacheEntry
  | 0, c => (c, .error (.FetchFailure id c.max_fetch_attempts))
  | n + 1, c =>
    match c.lookup id with
    | .ok idx =>
      match c.entries.get? idx with
      | some guard =>
        if guard.get_id == id then (c, .ok guard)
        else Cache.fetchEntryGo id n c
      | none => Cache.fetchEntryGo id n c
    | .error _ =>
      match c.evict_and_replace id with
      | (c', .ok _) => Cache.fetchEntryGo id n c'
      | (c', .error e) => (c', .error e)

/-- `Cache::fetch_entry` (cache/mod.rs:119-140): run the retry loop
`max_fetch_attempts` times, then `FetchFailure(id, max_fetch_attempts)`. -/
def Cache.fetch_entry (self : Cache) (id : PageId) :
    Cache × Except CacheError CacheEntry :=
  Cache.fetchEntryGo id self.max_fetch_attempts self

/-- The body of `Cache::fetch_mut_entry`'s retry loop
(cache/mod.rs:142-163).  The source duplicates `fetch_entry` except that
the hit path takes the write lock instead of the read lock; with locks not
modelled, the body is the same duplicated structure. -/
def Cache.fetchMutEntryGo (id : PageId) :
    Nat → Cache → Cache × Except CacheError CacheEntry
  | 0, c => (c, .error (.FetchFailure id c.max_fetch_attempts))
  | n + 1, c =>
    match c.lookup id with
    | .ok idx =>
      match c.entries.get? idx with
      | some guard =>
        if guard.get_id == id then (c, .ok guard)
        else Cache.fetchMutEntryGo id n c
      | none => Cache.fetchMutEntryGo id n c
    | .error _ =>
      match c.evict_and_replace id with
      | (c', .ok _) => Cache.fetchMutEntryGo id n c'
      | (c', .error e) => (c', .error e)

/-- `Cache::fetch_mut_entry` (cache/mod.rs:142-163). -/
def Cache.fetch_mut_entry (self : Cache) (id : PageId) :
    Cache × Except CacheError CacheEntry :=
  Cache.fetchMutEntryGo id self.max_fetch_attempts self

/-- The number of iterations of the `fetch_entry` retry loop that actually
run before the function returns (the same branch structure as
`fetchEntryGo`, counting one per executed iteration). -/
def Cache.fetchEntryIters (id : PageId) : Nat → Cache → Nat
  | 0, _ => 0
  | n + 1, c =>
    match c.lookup id with
    | .ok idx =>
      match c.entries.get? idx with
      | some guard =>
        if guard.get_id == id then 1
        else 1 + Cache.fetchEntryIters id n c
      | none => 1 + Cache.fetchEntryIters id n c
    | .error _ =>
      match c.evict_and_replace id with
      | (c', .ok _) => 1 + Cache.fetchEntryIters id n c'
      | (_, .error _) => 1

/-- The number of iterations of the `fetch_mut_entry` retry loop that
actually run before the function returns. -/
def Cache.fetchMutEntryIters (id : PageId) : Nat → Cache → Nat
  | 0, _ => 0
  | n + 1, c =>
    match c.lookup id with
    | .ok idx =>
      match c.entries.get? idx with
      | some guard =>
        if guard.get_id == id then 1
        else 1 + Cache.fetchMutEntryIters id n c
      | none => 1 + Cache.fetchMutEntryIters id n c
    | .error _ =>
      match c.evict_and_replace id with
      | (c', .ok _) => 1 + Cache.fetchMutEntryIters id n c'
      | (_, .error _) => 1

/-- Well-formedness of a FIFO cache state: the shape every cache built by
`Cache::new(capacity ≥ 1, FIFO, _, _)` has and keeps: `entries` holds
`capacity` slots, `capacity` fits in a `usize`, and the cursor is either
still at its `usize::MAX` initializer or below `capacity` (where every
eviction leaves it). -/
def Cache.WF (c : Cache) : Prop :=
  c.policy = .FIFO ∧ 1 ≤ c.capacity ∧ c.capacity < USIZE_MOD ∧
    c.entries.length = c.capacity ∧
    (c.last_evict = USIZE_MOD - 1 ∨ c.last_evict < c.capacity)

/-- The cache after a sequence of `evict_and_replace` calls, the `n`-th call
requesting `ids n`: the access pattern as far as the eviction cursor is
concerned, since `evict_and_replace` is the only operation that writes
`last_evict`. -/
def Cache.evictSeq (c : Cache) (ids : Nat → PageId) : Nat → Cache
  | 0 => c
  | n + 1 => ((c.evictSeq ids n).evict_and_replace (ids n)).1

/-- A backing store whose every page image is `1^PAGE_SIZE`: a concrete
instance of the spec's backing-store contract. -/
def fmConst : FileManager where
  fetch_page_data_from_disk := fun _ => List.replicate PAGE_SIZE 1

/-- A degenerate backing store returning no bytes (still a legal `Vec<Byte>`
value for `fetch_page_data_from_disk`, whose body is unimplemented). -/
def fmEmpty : FileManager where
  fetch_page_data_from_disk := fun _ => []

/-- A concrete freshly constructed cache: capacity 1, FIFO, 3 attempts. -/
def cache1 : Cache :=
  Cache.new 1 .FIFO 3 fmConst

/-- A concrete request sequence for the round-robin witness. -/
def ids0 : Nat → PageId :=
  fun _ => 0

/-- A successful `write_at` leaves the page dirty: the only `.ok` branch of
the source sets `self.dirty = true`. -/
theorem Page.write_at_ok_dirty (p : Page) (seek : Nat) (data : List Byte)
    (h : (p.write_at seek data).2 = .ok ()) :
    (p.write_at seek data).1.dirty = true := by
  unfold Page.write_at at *
  split_ifs at h ⊢
  simp_all

/-- `write_at` never clears the dirty flag. -/
theorem Page.write_at_dirty_mono (p : Page) (seek : Nat) (data : List Byte)
    (h : p.dirty = true) : (p.write_at seek data).1.dirty = true := by
  unfold Page.write_at
  split_ifs <;> simp_all

/-- C1: `read_at(seek, length)` and `write_at(seek, data)` with
`data.len() = length` fail with `OutOfBoundsRead` (respectively
`OutOfBoundsWrite`) iff `seek > 4096 ∨ length > 4096 ∨ seek + length > 4096`;
the boundary `seek + length = 4096` succeeds, and every in-bounds call
succeeds. -/
theorem page_out_of_bounds_iff (p : Page) (seek length : Nat)
    (data : List Byte) (hlen : data.length = length) :
    ((∃ msg, p.read_at seek length = .error (.OutOfBoundsRead msg)) ↔
      (seek > PAGE_SIZE ∨ length > PAGE_SIZE ∨ seek + length > PAGE_SIZE)) ∧
    ((∃ msg, (p.write_at seek data).2 = .error (.OutOfBoundsWrite msg)) ↔
      (seek > PAGE_SIZE ∨ length > PAGE_SIZE ∨ seek + length > PAGE_SIZE)) ∧
    (seek + length = PAGE_SIZE →
      (p.read_at seek length).isOk = true ∧
      (p.write_at seek data).2 = .ok ()) ∧
    (¬ (seek > PAGE_SIZE ∨ length > PAGE_SIZE ∨ seek + length > PAGE_SIZE) →
      (p.read_at seek length).isOk = true ∧
      (p.write_at seek data).2 = .ok ()) := by
  subst hlen
  refine ⟨?_, ?_, ?_, ?_⟩
  · unfold Page.read_at
    split_ifs <;> simp_all
  · unfold Page.write_at
    split_ifs <;> simp_all
  · intro hb
    have h1 : ¬ seek > PAGE_SIZE := by omega
    have h2 : ¬ data.length > PAGE_SIZE := by omega
    have h3 : ¬ seek + data.length > PAGE_SIZE := by omega
    constructor
    · unfold Page.read_at
      rw [if_neg h1, if_neg h2, if_neg h3]
      rfl
    · unfold Page.write_at
      rw [if_neg h1, if_neg h2, dif_neg h3]
  · intro hb
    push_neg at hb
    have h1 : ¬ seek > PAGE_SIZE := by omega
    have h2 : ¬ data.length > PAGE_SIZE := by omega
    have h3 : ¬ seek + data.length > PAGE_SIZE := by omega
    constructor
    · unfold Page.read_at
      rw [if_neg h1, if_neg h2, if_neg h3]
      rfl
    · unfold Page.write_at
      rw [if_neg h1, if_neg h2, dif_neg h3]

/-- C1 witness: the out-of-bounds seek 4097 fails both ways, and the
boundary read/write at `seek + length = PAGE_SIZE` succeeds. -/
theorem page_out_of_bounds_iff_witness :
    ((∃ msg, Page.allocate.read_at 4097 0 = .error (.OutOfBoundsRead msg)) ↔
      (4097 > PAGE_SIZE ∨ 0 > PAGE_SIZE ∨ 4097 + 0 > PAGE_SIZE)) ∧
    ((∃ msg,
        (Page.allocate.write_at 4097 []).2 = .error (.OutOfBoundsWrite msg)) ↔
      (4097 > PAGE_SIZE ∨ 0 > PAGE_SIZE ∨ 4097 + 0 > PAGE_SIZE)) ∧
    (4097 + 0 = PAGE_SIZE →
      (Page.allocate.read_at 4097 0).isOk = true ∧
      (Page.allocate.write_at 4097 []).2 = .ok ()) ∧
    (¬ (4097 > PAGE_SIZE ∨ 0 > PAGE_SIZE ∨ 4097 + 0 > PAGE_SIZE) →
      (Page.allocate.read_at 4097 0).isOk = true ∧
      (Page.allocate.write_at 4097 []).2 = .ok ()) :=
  page_out_of_bounds_iff Page.allocate 4097 0 [] rfl

/-- C2: for `seek + data.len() ≤ 4096`, `write_at(seek, data)` succeeds and
`read_at(seek, data.len())` on the written page returns exactly `data`. -/
theorem write_then_read_roundtrip (p : Page) (seek : Nat) (data : List Byte)
    (h : seek + data.length ≤ PAGE_SIZE) :
    (p.write_at seek data).2 = .ok () ∧
    (p.write_at seek data).1.read_at seek data.length = .ok data := by
  have hs := p.size_eq
  have h1 : ¬ seek > PAGE_SIZE := by omega
  have h2 : ¬ data.length > PAGE_SIZE := by omega
  have h3 : ¬ seek + data.length > PAGE_SIZE := by omega
  unfold Page.write_at
  rw [if_neg h1, if_neg h2, dif_neg h3]
  refine ⟨rfl, ?_⟩
  unfold Page.read_at
  rw [if_neg h1, if_neg h2, if_neg h3]
  dsimp only
  congr 1
  have htk : (p.data.take seek).length = seek := by
    simp only [List.length_take]
    omega
  rw [List.append_assoc, List.drop_left' htk]
  exact List.take_left' rfl

/-- C2 witness: the spec's boundary example, writing two bytes at 4094 and
reading them back. -/
theorem write_then_read_roundtrip_witness :
    (Page.allocate.write_at 4094 [7, 7]).2 = .ok () ∧
    (Page.allocate.write_at 4094 [7, 7]).1.read_at 4094 2 = .ok [7, 7] :=
  write_then_read_roundtrip Page.allocate 4094 [7, 7] (by decide)

/-- C3: a freshly allocated page reads as `PAGE_SIZE` zero bytes and is not
dirty; every successful `write_at` makes the page dirty; and no sequence of
`Page` operations ever clears the dirty flag again. -/
theorem allocate_zero_write_dirty_monotone :
    (Page.allocate.read_at 0 PAGE_SIZE = .ok (List.replicate PAGE_SIZE 0) ∧
      Page.allocate.is_dirty = false) ∧
    (∀ (p : Page) (seek : Nat) (data : List Byte),
      (p.write_at seek data).2 = .ok () →
      (p.write_at seek data).1.is_dirty = true) ∧
    ∀ (p : Page) (ops : List PageOp),
      p.is_dirty = true → (p.applyOps ops).is_dirty = true := by
  refine ⟨⟨?_, rfl⟩, ?_, ?_⟩
  · unfold Page.read_at
    rw [if_neg (by omega : ¬ (0 : Nat) > PAGE_SIZE),
      if_neg (by omega : ¬ PAGE_SIZE > PAGE_SIZE),
      if_neg (by omega : ¬ 0 + PAGE_SIZE > PAGE_SIZE)]
    dsimp only [Page.allocate]
    rw [List.drop_zero, List.take_replicate, Nat.min_self]
  · intro p seek data h
    exact Page.write_at_ok_dirty p seek data h
  · intro p ops h
    induction ops generalizing p with
    | nil => exact h
    | cons op ops ih =>
      cases op with
      | read seek length => exact ih p h
      | isDirty => exact ih p h
      | write seek data =>
        exact ih _ (Page.write_at_dirty_mono p seek data h)

/-- C4: whenever `write_at` returns an error, the page (its byte buffer and
its dirty flag) is exactly as it was before the call: all three bound checks
happen before any mutation. -/
theorem write_at_error_is_noop (p : Page) (seek : Nat) (data : List Byte)
    (e : PageError) (h : (p.write_at seek data).2 = .error e) :
    (p.write_at seek data).1 = p := by
  unfold Page.write_at at *
  split_ifs at h ⊢ <;> simp_all

/-- C4 witness: a write at seek 4097 fails and leaves the fresh page
untouched. -/
theorem write_at_error_is_noop_witness :
    (Page.allocate.write_at 4097 []).1 = Page.allocate :=
  write_at_error_is_noop Page.allocate 4097 []
    (.OutOfBoundsWrite ("Seek " ++ toString 4097 ++ ", Page Size "
      ++ toString PAGE_SIZE)) rfl

theorem usize_mod_pos : 0 < USIZE_MOD := by
  unfold USIZE_MOD
  positivity

/-- A full-page `write_at(0, data)` with `data.len() = PAGE_SIZE` succeeds
and replaces the whole buffer. -/
theorem Page.write_at_full_ok (p : Page) (data : List Byte)
    (h : data.length = PAGE_SIZE) :
    (p.write_at 0 data).2 = .ok () ∧
    (p.write_at 0 data).1.data = data ∧
    (p.write_at 0 data).1.dirty = true := by
  have h1 : ¬ (0 : Nat) > PAGE_SIZE := by omega
  have h2 : ¬ data.length > PAGE_SIZE := by omega
  have h3 : ¬ 0 + data.length > PAGE_SIZE := by omega
  unfold Page.write_at
  rw [if_neg h1, if_neg h2, dif_neg h3]
  refine ⟨rfl, ?_, rfl⟩
  dsimp only
  rw [List.take_zero, List.nil_append]
  have hd : p.data.drop (0 + data.length) = [] :=
    List.drop_eq_nil_of_le (by rw [p.size_eq]; omega)
  rw [hd, List.append_nil]

/-- The FIFO cursor step from a cursor below `capacity`: plain increment
modulo `capacity`. -/
theorem Cache.fifoVictim_eq (c : Cache)
    (hsz : c.capacity < USIZE_MOD) (hl : c.last_evict < c.capacity) :
    c.fifoVictim = (c.last_evict + 1) % c.capacity := by
  simp only [Cache.fifoVictim]
  have h1 : c.last_evict + 1 < USIZE_MOD := by omega
  rw [Nat.mod_eq_of_lt h1]
  split
  · next h =>
    simp only [beq_iff_eq] at h
    rw [h, Nat.mod_self]
  · next h =>
    simp only [beq_iff_eq] at h
    rw [Nat.mod_eq_of_lt (by omega)]

/-- The FIFO cursor step from the `usize::MAX` initializer: the increment
wraps to 0, so the first eviction lands on slot 0. -/
theorem Cache.fifoVictim_init (c : Cache) (hl : c.last_evict = USIZE_MOD - 1) :
    c.fifoVictim = 0 := by
  have h0 : 0 < USIZE_MOD := usize_mod_pos
  simp only [Cache.fifoVictim, hl]
  have h1 : USIZE_MOD - 1 + 1 = USIZE_MOD := by omega
  rw [h1, Nat.mod_self]
  split
  · rfl
  · rfl

/-- On a well-formed cache the FIFO victim index is a real slot index. -/
theorem Cache.fifoVictim_lt (c : Cache) (hwf : c.WF) :
    c.fifoVictim < c.capacity := by
  obtain ⟨-, hcap, hsz, -, hle⟩ := hwf
  rcases hle with h | h
  · rw [Cache.fifoVictim_init c h]
    omega
  · rw [Cache.fifoVictim_eq c hsz h]
    exact Nat.mod_lt _ (by omega)

/-- `evict_and_replace` never touches the cache's policy, capacity, backing
store, retry budget, or slot count. -/
theorem Cache.evict_preserves (c : Cache) (id : PageId) :
    (c.evict_and_replace id).1.policy = c.policy ∧
    (c.evict_and_replace id).1.capacity = c.capacity ∧
    (c.evict_and_replace id).1.file_manager = c.file_manager ∧
    (c.evict_and_replace id).1.max_fetch_attempts = c.max_fetch_attempts ∧
    (c.evict_and_replace id).1.entries.length = c.entries.length := by
  unfold Cache.evict_and_replace
  cases hp : c.policy
  case FIFO =>
    dsimp only
    split
    · split
      · exact ⟨rfl, rfl, rfl, rfl, by simp [List.length_set]⟩
      · exact ⟨rfl, rfl, rfl, rfl, by simp [List.length_set]⟩
    · exact ⟨rfl, rfl, rfl, rfl, rfl⟩
  case LFU => dsimp only; exact ⟨hp, rfl, rfl, rfl, rfl⟩
  case LRU => dsimp only; exact ⟨hp, rfl, rfl, rfl, rfl⟩
  case MRU => dsimp only; exact ⟨hp, rfl, rfl, rfl, rfl⟩

/-- In the FIFO arm, `evict_and_replace` always writes the advanced cursor
back, whether or not the page load succeeds (the source increments
`self.last_evict` before anything can fail). -/
theorem Cache.evict_last_evict (c : Cache) (id : PageId)
    (hp : c.policy = .FIFO) :
    (c.evict_and_replace id).1.last_evict = c.fifoVictim := by
  unfold Cache.evict_and_replace
  rw [hp]
  dsimp only
  split
  · split
    · rfl
    · rfl
  · rfl

/-- `evict_and_replace` keeps a cache well-formed. -/
theorem Cache.evict_wf (c : Cache) (id : PageId) (hwf : c.WF) :
    (c.evict_and_replace id).1.WF := by
  have hv := Cache.fifoVictim_lt c hwf
  obtain ⟨hp, hcap, hsz, hlen, hle⟩ := hwf
  unfold Cache.evict_and_replace
  rw [hp]
  dsimp only
  split
  · split
    · exact ⟨rfl, hcap, hsz, by simpa [List.length_set] using hlen, Or.inr hv⟩
    · exact ⟨rfl, hcap, hsz, by simpa [List.length_set] using hlen, Or.inr hv⟩
  · exact ⟨rfl, hcap, hsz, hlen, Or.inr hv⟩

/-- On a well-formed cache whose backing store returns a full page for `id`,
`evict_and_replace(id)` succeeds and rewrites the victim slot in place: new
id, freshly written page, `valid` untouched. -/
theorem Cache.evict_fifo_spec (c : Cache) (id : PageId) (hwf : c.WF)
    (hfm : (c.file_manager.fetch_page_data_from_disk id).length = PAGE_SIZE) :
    (c.evict_and_replace id).2 = .ok () ∧
    ∀ old, c.entries.get? c.fifoVictim = some old →
      (c.evict_and_replace id).1.entries.get? c.fifoVictim =
        some { valid := old.valid, id := id,
               page := (old.page.write_at 0
                 (c.file_manager.fetch_page_data_from_disk id)).1 } := by
  have hv := Cache.fifoVictim_lt c hwf
  have hp := hwf.1
  have hlen := hwf.2.2.2.1
  have hvlen : c.fifoVictim < c.entries.length := by omega
  obtain ⟨old, hold⟩ : ∃ e, c.entries.get? c.fifoVictim = some e := by
    rw [List.get?_eq_getElem?]
    exact ⟨_, List.getElem?_eq_getElem hvlen⟩
  have hok := Page.write_at_full_ok old.page
    (c.file_manager.fetch_page_data_from_disk id) hfm
  have key1 : (c.evict_and_replace id).2 = .ok () := by
    unfold Cache.evict_and_replace
    rw [hp]
    dsimp only
    rw [hold]
    dsimp only
    rw [hok.1]
  have key2 : (c.evict_and_replace id).1.entries =
      c.entries.set c.fifoVictim
        { valid := old.valid, id := id,
          page := (old.page.write_at 0
            (c.file_manager.fetch_page_data_from_disk id)).1 } := by
    unfold Cache.evict_and_replace
    rw [hp]
    dsimp only
    rw [hold]
    dsimp only
    rw [hok.1]
  refine ⟨key1, fun old' hold' => ?_⟩
  rw [hold] at hold'
  injection hold' with he
  subst he
  rw [key2]
  rw [List.get?_eq_getElem?, List.getElem?_set_self hvlen]

/-- If the scan body of `lookup` answers `Ok(j)`, slot `j` exists and its id
field equals the requested id (nothing is said about `valid`). -/
theorem Cache.lookupGo_ok (c : Cache) (id : PageId) :
    ∀ (n idx j : Nat), c.lookupGo id idx n = .ok j →
      ∃ e, c.entries.get? j = some e ∧ e.get_id = id := by
  intro n
  induction n with
  | zero =>
    intro idx j h
    exact absurd h (by simp [Cache.lookupGo])
  | succ n ih =>
    intro idx j h
    unfold Cache.lookupGo at h
    split at h
    · next entry hget =>
      split at h
      · next hbeq =>
        injection h with h'
        subst h'
        exact ⟨entry, hget, by simpa [beq_iff_eq] using hbeq⟩
      · next hbeq =>
        exact ih _ _ h
    · next hget =>
      exact ih _ _ h

/-- The scan body of `lookup` reports `LookupFailure` exactly when none of
the `n` slots starting at `idx` carries the requested id field. -/
theorem Cache.lookupGo_error_iff (c : Cache) (id : PageId) :
    ∀ (n idx : Nat), c.lookupGo id idx n = .error (.LookupFailure id) ↔
      ∀ k, k < n → ∀ e, c.entries.get? (idx + k) = some e →
        e.get_id ≠ id := by
  intro n
  induction n with
  | zero =>
    intro idx
    simp [Cache.lookupGo]
  | succ n ih =>
    intro idx
    unfold Cache.lookupGo
    rcases hget : c.entries.get? idx with _ | entry
    · dsimp only
      rw [ih (idx + 1)]
      constructor
      · intro hall k hk e hke
        rcases k with _ | k
        · rw [Nat.add_zero, hget] at hke
          cases hke
        · have hsh : idx + (k + 1) = idx + 1 + k := by omega
          rw [hsh] at hke
          exact hall k (by omega) e hke
      · intro hall k hk e hke
        have hsh : idx + 1 + k = idx + (k + 1) := by omega
        rw [hsh] at hke
        exact hall (k + 1) (by omega) e hke
    · dsimp only
      by_cases hid : entry.get_id = id
      · rw [if_pos (by simpa [beq_iff_eq] using hid)]
        constructor
        · intro h
          cases h
        · intro hall
          exact absurd hid
            (hall 0 (by omega) entry (by rw [Nat.add_zero]; exact hget))
      · rw [if_neg (by simpa [beq_iff_eq] using hid)]
        rw [ih (idx + 1)]
        constructor
        · intro hall k hk e hke
          rcases k with _ | k
          · rw [Nat.add_zero, hget] at hke
            injection hke with he
            subst he
            exact hid
          · have hsh : idx + (k + 1) = idx + 1 + k := by omega
            rw [hsh] at hke
            exact hall k (by omega) e hke
        · intro hall k hk e hke
          have hsh : idx + 1 + k = idx + (k + 1) := by omega
          rw [hsh] at hke
          exact hall (k + 1) (by omega) e hke

/-- `lookup` hit: the found slot's id field equals the requested id. -/
theorem Cache.lookup_ok_state (c : Cache) (id : PageId) (idx : Nat)
    (h : c.lookup id = .ok idx) :
    ∃ e, c.entries.get? idx = some e ∧ e.get_id = id :=
  Cache.lookupGo_ok c id c.capacity 0 idx h

/-- Along a sequence of evictions the policy and capacity are constant. -/
theorem Cache.evictSeq_fields (c : Cache) (ids : Nat → PageId) :
    ∀ m, (c.evictSeq ids m).policy = c.policy ∧
      (c.evictSeq ids m).capacity = c.capacity := by
  intro m
  induction m with
  | zero => exact ⟨rfl, rfl⟩
  | succ m ih =>
    have hpres := Cache.evict_preserves (c.evictSeq ids m) (ids m)
    exact ⟨hpres.1.trans ih.1, hpres.2.1.trans ih.2⟩

/-- After `m` evictions on a fresh FIFO cache the victim selected by the
next (the `m+1`-st) eviction is slot `m % capacity`, whatever ids were
requested. -/
theorem Cache.evictSeq_cursor (cap A : Nat) (fm : FileManager)
    (ids : Nat → PageId) (hcap : 1 ≤ cap) (hsz : cap < USIZE_MOD) :
    ∀ m, ((Cache.new cap .FIFO A fm).evictSeq ids m).fifoVictim = m % cap := by
  have hfield := Cache.evictSeq_fields (Cache.new cap .FIFO A fm) ids
  intro m
  induction m with
  | zero =>
    rw [Nat.zero_mod]
    exact Cache.fifoVictim_init _ rfl
  | succ m ih =>
    have hp : ((Cache.new cap .FIFO A fm).evictSeq ids m).policy = .FIFO :=
      (hfield m).1
    have hc : ((Cache.new cap .FIFO A fm).evictSeq ids (m + 1)).capacity =
        cap := (hfield (m + 1)).2
    have hlast : ((Cache.new cap .FIFO A fm).evictSeq ids (m + 1)).last_evict =
        m % cap := by
      show (((Cache.new cap .FIFO A fm).evictSeq ids m).evict_and_replace
        (ids m)).1.last_evict = m % cap
      rw [Cache.evict_last_evict _ _ hp, ih]
    have hcap' :
        1 ≤ ((Cache.new cap .FIFO A fm).evictSeq ids (m + 1)).capacity := by
      rw [hc]
      omega
    have hsz' :
        ((Cache.new cap .FIFO A fm).evictSeq ids (m + 1)).capacity <
          USIZE_MOD := by
      rw [hc]
      omega
    have hlt' :
        ((Cache.new cap .FIFO A fm).evictSeq ids (m + 1)).last_evict <
          ((Cache.new cap .FIFO A fm).evictSeq ids (m + 1)).capacity := by
      rw [hlast, hc]
      exact Nat.mod_lt _ (by omega)
    have hv := Cache.fifoVictim_eq _ hsz' hlt'
    rw [hv, hlast, hc]
    exact Nat.mod_add_mod m cap 1

/-- The retry loop body of `fetch_entry`, analyzed with `n` iterations of
budget left on a well-formed cache whose backing store honours the page-size
contract for `id`: the loop runs at most `n` more iterations and ends in a
guard carrying the requested id or in `FetchFailure` with the cache's retry
budget. -/
theorem Cache.fetchEntryGo_spec (id : PageId) :
    ∀ (n : Nat) (c : Cache), c.WF →
      (c.file_manager.fetch_page_data_from_disk id).length = PAGE_SIZE →
      Cache.fetchEntryIters id n c ≤ n ∧
      (∀ g, (Cache.fetchEntryGo id n c).2 = .ok g → g.get_id = id) ∧
      (∀ e, (Cache.fetchEntryGo id n c).2 = .error e →
        e = .FetchFailure id c.max_fetch_attempts) := by
  intro n
  induction n with
  | zero =>
    intro c hwf hfm
    refine ⟨Nat.le_refl 0, ?_, ?_⟩
    · intro g hg
      exact absurd hg (by simp [Cache.fetchEntryGo])
    · intro e he
      unfold Cache.fetchEntryGo at he
      injection he with he'
      exact he'.symm
  | succ n ih =>
    intro c hwf hfm
    rcases hl : c.lookup id with e0 | idx
    · -- miss: evict, which succeeds, and retry on the evolved cache
      rcases hev : c.evict_and_replace id with ⟨c', r⟩
      have hr : r = .ok () := by
        have := (Cache.evict_fifo_spec c id hwf hfm).1
        rw [hev] at this
        exact this
      subst hr
      have hc' : (c.evict_and_replace id).1 = c' := by rw [hev]
      have hwf' : c'.WF := hc' ▸ Cache.evict_wf c id hwf
      have hpres := Cache.evict_preserves c id
      have hfm' : (c'.file_manager.fetch_page_data_from_disk id).length =
          PAGE_SIZE := by
        rw [← hc', hpres.2.2.1]
        exact hfm
      have hmax : c'.max_fetch_attempts = c.max_fetch_attempts := by
        rw [← hc']
        exact hpres.2.2.2.1
      obtain ⟨hiter, hok, herr⟩ := ih c' hwf' hfm'
      refine ⟨?_, ?_, ?_⟩
      · unfold Cache.fetchEntryIters
        rw [hl, hev]
        dsimp only
        omega
      · intro g hg
        unfold Cache.fetchEntryGo at hg
        rw [hl, hev] at hg
        dsimp only at hg
        exact hok g hg
      · intro e he
        unfold Cache.fetchEntryGo at he
        rw [hl, hev] at he
        dsimp only at he
        rw [herr e he]
        rw [hmax]
    · -- hit: the guard's id re-check passes and the guard is returned
      obtain ⟨entry, hget, hid⟩ := Cache.lookup_ok_state c id idx hl
      have hbeq : (entry.get_id == id) = true := beq_iff_eq.mpr hid
      refine ⟨?_, ?_, ?_⟩
      · unfold Cache.fetchEntryIters
        rw [hl]
        dsimp only
        rw [hget]
        dsimp only
        rw [if_pos hbeq]
        omega
      · intro g hg
        unfold Cache.fetchEntryGo at hg
        rw [hl] at hg
        dsimp only at hg
        rw [hget] at hg
        dsimp only at hg
        rw [if_pos hbeq] at hg
        injection hg with hg'
        rw [← hg']
        exact hid
      · intro e he
        unfold Cache.fetchEntryGo at he
        rw [hl] at he
        dsimp only at he
        rw [hget] at he
        dsimp only at he
        rw [if_pos hbeq] at he
        cases he

/-- The retry loop body of `fetch_mut_entry`: the same bound and dichotomy
as for `fetch_entry` (the source duplicates the loop). -/
theorem Cache.fetchMutEntryGo_spec (id : PageId) :
    ∀ (n : Nat) (c : Cache), c.WF →
      (c.file_manager.fetch_page_data_from_disk id).length = PAGE_SIZE →
      Cache.fetchMutEntryIters id n c ≤ n ∧
      (∀ g, (Cache.fetchMutEntryGo id n c).2 = .ok g → g.get_id = id) ∧
      (∀ e, (Cache.fetchMutEntryGo id n c).2 = .error e →
        e = .FetchFailure id c.max_fetch_attempts) := by
  intro n
  induction n with
  | zero =>
    intro c hwf hfm
    refine ⟨Nat.le_refl 0, ?_, ?_⟩
    · intro g hg
      exact absurd hg (by simp [Cache.fetchMutEntryGo])
    · intro e he
      unfold Cache.fetchMutEntryGo at he
      injection he with he'
      exact he'.symm
  | succ n ih =>
    intro c hwf hfm
    rcases hl : c.lookup id with e0 | idx
    · rcases hev : c.evict_and_replace id with ⟨c', r⟩
      have hr : r = .ok () := by
        have := (Cache.evict_fifo_spec c id hwf hfm).1
        rw [hev] at this
        exact this
      subst hr
      have hc' : (c.evict_and_replace id).1 = c' := by rw [hev]
      have hwf' : c'.WF := hc' ▸ Cache.evict_wf c id hwf
      have hpres := Cache.evict_preserves c id
      have hfm' : (c'.file_manager.fetch_page_data_from_disk id).length =
          PAGE_SIZE := by
        rw [← hc', hpres.2.2.1]
        exact hfm
      have hmax : c'.max_fetch_attempts = c.max_fetch_attempts := by
        rw [← hc']
        exact hpres.2.2.2.1
      obtain ⟨hiter, hok, herr⟩ := ih c' hwf' hfm'
      refine ⟨?_, ?_, ?_⟩
      · unfold Cache.fetchMutEntryIters
        rw [hl, hev]
        dsimp only
        omega
      · intro g hg
        unfold Cache.fetchMutEntryGo at hg
        rw [hl, hev] at hg
        dsimp only at hg
        exact hok g hg
      · intro e he
        unfold Cache.fetchMutEntryGo at he
        rw [hl, hev] at he
        dsimp only at he
        rw [herr e he]
        rw [hmax]
    · obtain ⟨entry, hget, hid⟩ := Cache.lookup_ok_state c id idx hl
      have hbeq : (entry.get_id == id) = true := beq_iff_eq.mpr hid
      refine ⟨?_, ?_, ?_⟩
      · unfold Cache.fetchMutEntryIters
        rw [hl]
        dsimp only
        rw [hget]
        dsimp only
        rw [if_pos hbeq]
        omega
      · intro g hg
        unfold Cache.fetchMutEntryGo at hg
        rw [hl] at hg
        dsimp only at hg
        rw [hget] at hg
        dsimp only at hg
        rw [if_pos hbeq] at hg
        injection hg with hg'
        rw [← hg']
        exact hid
      · intro e he
        unfold Cache.fetchMutEntryGo at he
        rw [hl] at he
        dsimp only at he
        rw [hget] at he
        dsimp only at he
        rw [if_pos hbeq] at he
        cases he

/-- On a fresh cache with at least one slot, `lookup(0)` hits slot 0: every
fresh slot carries id field 0 and the scan never consults `valid`. -/
theorem Cache.lookup_new_zero (cap A : Nat) (pol : EvictionPolicy)
    (fm : FileManager) (hcap : 1 ≤ cap) :
    (Cache.new cap pol A fm).lookup 0 = .ok 0 := by
  obtain ⟨m, rfl⟩ : ∃ m, cap = m + 1 := ⟨cap - 1, by omega⟩
  show (Cache.new (m + 1) pol A fm).lookupGo 0 0 (m + 1) = .ok 0
  unfold Cache.lookupGo
  simp [Cache.new, List.get?_eq_getElem?, List.getElem?_replicate,
    CacheEntry.get_id, CacheEntry.new]

/-- On a fresh cache, `lookup(id)` fails for every nonzero id: every fresh
slot carries id field 0. -/
theorem Cache.lookup_new_ne (cap A : Nat) (pol : EvictionPolicy)
    (fm : FileManager) (id : PageId) (hid : id ≠ 0) :
    (Cache.new cap pol A fm).lookup id = .error (.LookupFailure id) := by
  have h := (Cache.lookupGo_error_iff (Cache.new cap pol A fm) id
    ((Cache.new cap pol A fm).capacity) 0).mpr ?_
  · exact h
  · intro k hk e hke
    simp only [Cache.new] at hke
    rw [List.get?_eq_getElem?, List.getElem?_replicate] at hke
    split at hke
    · injection hke with he
      subst he
      simpa [CacheEntry.get_id, CacheEntry.new] using Ne.symm hid
    · cases hke

/-- C5 (amended): `lookup(id)` returns `Ok(idx)` only when slot `idx`'s id
field equals the requested id — the `valid` flag is never consulted — and
returns `Err(LookupFailure(id))` exactly when no slot's id field equals the
requested id.  On a freshly constructed cache every slot carries id field 0,
so `lookup(0)` succeeds at slot 0, while `lookup(id)` fails for every
`id ≠ 0`. -/
theorem lookup_ignores_valid_spec (c : Cache) (id : PageId)
    (hlen : c.entries.length = c.capacity) :
    (∀ idx, c.lookup id = .ok idx →
      ∃ e, c.entries.get? idx = some e ∧ e.get_id = id) ∧
    (c.lookup id = .error (.LookupFailure id) ↔
      ∀ e ∈ c.entries, e.get_id ≠ id) ∧
    (∀ (cap A : Nat) (pol : EvictionPolicy) (fm : FileManager), 1 ≤ cap →
      (Cache.new cap pol A fm).lookup 0 = .ok 0) ∧
    (∀ (cap A : Nat) (pol : EvictionPolicy) (fm : FileManager), id ≠ 0 →
      (Cache.new cap pol A fm).lookup id = .error (.LookupFailure id)) := by
  refine ⟨fun idx => Cache.lookup_ok_state c id idx, ?_,
    fun cap A pol fm hcap => Cache.lookup_new_zero cap A pol fm hcap,
    fun cap A pol fm hid => Cache.lookup_new_ne cap A pol fm id hid⟩
  have h := Cache.lookupGo_error_iff c id c.capacity 0
  constructor
  · intro herr e hmem
    obtain ⟨i, hi⟩ := List.mem_iff_get?.mp hmem
    obtain ⟨hlt, -⟩ := List.get?_eq_some.mp hi
    have hik : i < c.capacity := by omega
    exact (h.mp herr) i hik e (by rw [Nat.zero_add]; exact hi)
  · intro hall
    exact h.mpr (fun k hk e hke => hall e (List.get?_mem hke))

/-- C5 witness: the characterization at a concrete fresh cache and id 0. -/
theorem lookup_ignores_valid_spec_witness :
    (∀ idx, cache1.lookup 0 = .ok idx →
      ∃ e, cache1.entries.get? idx = some e ∧ e.get_id = 0) ∧
    (cache1.lookup 0 = .error (.LookupFailure 0) ↔
      ∀ e ∈ cache1.entries, e.get_id ≠ 0) ∧
    (∀ (cap A : Nat) (pol : EvictionPolicy) (fm : FileManager), 1 ≤ cap →
      (Cache.new cap pol A fm).lookup 0 = .ok 0) ∧
    (∀ (cap A : Nat) (pol : EvictionPolicy) (fm : FileManager),
      (0 : PageId) ≠ 0 →
      (Cache.new cap pol A fm).lookup 0 = .error (.LookupFailure 0)) :=
  lookup_ignores_valid_spec cache1 0 rfl

/-- C5 counterexample: on a freshly constructed cache (all slots invalid),
`lookup(0)` succeeds at slot 0 even though that slot's `valid` is false —
the claim demands `LookupFailure` for every id on a fresh cache and a valid
slot behind every `Ok`. -/
theorem lookup_fresh_cache_hit_invalid :
    cache1.lookup 0 = .ok 0 ∧
    (cache1.entries.get? 0).map CacheEntry.is_valid = some false :=
  ⟨rfl, rfl⟩

/-- C6: on a well-formed FIFO cache whose backing store honours the
page-size contract, `fetch_entry(id)` and `fetch_mut_entry(id)` run at most
`max_fetch_attempts` loop iterations and return either a guard whose slot id
equals the requested id or `FetchFailure(id, max_fetch_attempts)`; with a
budget of 0 they immediately return `FetchFailure(id, 0)`. -/
theorem fetch_entry_retry_bound (c : Cache) (id : PageId) (hwf : c.WF)
    (hfm : (c.file_manager.fetch_page_data_from_disk id).length = PAGE_SIZE) :
    Cache.fetchEntryIters id c.max_fetch_attempts c ≤ c.max_fetch_attempts ∧
    Cache.fetchMutEntryIters id c.max_fetch_attempts c ≤
      c.max_fetch_attempts ∧
    ((∃ g, (c.fetch_entry id).2 = .ok g ∧ g.get_id = id) ∨
      (c.fetch_entry id).2 = .error (.FetchFailure id c.max_fetch_attempts)) ∧
    ((∃ g, (c.fetch_mut_entry id).2 = .ok g ∧ g.get_id = id) ∨
      (c.fetch_mut_entry id).2 =
        .error (.FetchFailure id c.max_fetch_attempts)) ∧
    (c.max_fetch_attempts = 0 →
      c.fetch_entry id = (c, .error (.FetchFailure id 0)) ∧
      c.fetch_mut_entry id = (c, .error (.FetchFailure id 0))) := by
  obtain ⟨hi, hok, herr⟩ :=
    Cache.fetchEntryGo_spec id c.max_fetch_attempts c hwf hfm
  obtain ⟨hi', hok', herr'⟩ :=
    Cache.fetchMutEntryGo_spec id c.max_fetch_attempts c hwf hfm
  refine ⟨hi, hi', ?_, ?_, ?_⟩
  · rcases hres : (c.fetch_entry id).2 with e | g
    · right
      rw [herr e hres]
    · left
      exact ⟨g, rfl, hok g hres⟩
  · rcases hres : (c.fetch_mut_entry id).2 with e | g
    · right
      rw [herr' e hres]
    · left
      exact ⟨g, rfl, hok' g hres⟩
  · intro h0
    constructor
    · unfold Cache.fetch_entry
      rw [h0]
      unfold Cache.fetchEntryGo
      rw [h0]
    · unfold Cache.fetch_mut_entry
      rw [h0]
      unfold Cache.fetchMutEntryGo
      rw [h0]

/-- C6 witness: the retry bound at a concrete fresh FIFO cache. -/
theorem fetch_entry_retry_bound_witness :
    Cache.fetchEntryIters 0 cache1.max_fetch_attempts cache1 ≤
      cache1.max_fetch_attempts ∧
    Cache.fetchMutEntryIters 0 cache1.max_fetch_attempts cache1 ≤
      cache1.max_fetch_attempts ∧
    ((∃ g, (cache1.fetch_entry 0).2 = .ok g ∧ g.get_id = 0) ∨
      (cache1.fetch_entry 0).2 =
        .error (.FetchFailure 0 cache1.max_fetch_attempts)) ∧
    ((∃ g, (cache1.fetch_mut_entry 0).2 = .ok g ∧ g.get_id = 0) ∨
      (cache1.fetch_mut_entry 0).2 =
        .error (.FetchFailure 0 cache1.max_fetch_attempts)) ∧
    (cache1.max_fetch_attempts = 0 →
      cache1.fetch_entry 0 = (cache1, .error (.FetchFailure 0 0)) ∧
      cache1.fetch_mut_entry 0 = (cache1, .error (.FetchFailure 0 0))) :=
  fetch_entry_retry_bound cache1 0
    ⟨rfl, by decide, by decide, rfl, Or.inl rfl⟩
    (by simp [cache1, Cache.new, fmConst])

/-- C7: a fresh FIFO cache has its cursor at `usize::MAX`, the first
eviction selects slot 0, and the `n`-th eviction overall selects slot
`(n-1) % capacity`, whatever ids the evictions request. -/
theorem fifo_round_robin (cap A : Nat) (fm : FileManager)
    (ids : Nat → PageId) (hcap : 1 ≤ cap) (hsz : cap < USIZE_MOD) :
    (Cache.new cap .FIFO A fm).last_evict = USIZE_MOD - 1 ∧
    (Cache.new cap .FIFO A fm).fifoVictim = 0 ∧
    ∀ n, 1 ≤ n →
      ((Cache.new cap .FIFO A fm).evictSeq ids (n - 1)).fifoVictim =
        (n - 1) % cap :=
  ⟨rfl, Cache.fifoVictim_init _ rfl,
    fun n _ => Cache.evictSeq_cursor cap A fm ids hcap hsz (n - 1)⟩

/-- C7 witness: on a capacity-2 cache the third eviction selects slot
`2 % 2 = 0`. -/
theorem fifo_round_robin_witness :
    ((Cache.new 2 .FIFO 1 fmEmpty).evictSeq ids0 2).fifoVictim = 2 % 2 :=
  (fifo_round_robin 2 1 fmEmpty ids0 (by omega) (by decide)).2.2 3 (by omega)

/-- C8 (amended): a successful FIFO `evict_and_replace(id)` leaves the
victim slot with its id field equal to the requested id and its page content
equal to the bytes fetched from the backing store, but its `valid` flag is
left unchanged — the source never sets `valid` to true. -/
theorem evict_and_replace_success_spec (c : Cache) (id : PageId)
    (hwf : c.WF)
    (hfm : (c.file_manager.fetch_page_data_from_disk id).length = PAGE_SIZE) :
    (c.evict_and_replace id).2 = .ok () ∧
    ∀ old, c.entries.get? c.fifoVictim = some old →
      ∃ e, (c.evict_and_replace id).1.entries.get? c.fifoVictim = some e ∧
        e.id = id ∧
        e.page.data = c.file_manager.fetch_page_data_from_disk id ∧
        e.valid = old.valid := by
  obtain ⟨h1, h2⟩ := Cache.evict_fifo_spec c id hwf hfm
  refine ⟨h1, fun old hold => ?_⟩
  refine ⟨_, h2 old hold, rfl, ?_, rfl⟩
  exact (Page.write_at_full_ok old.page _ hfm).2.1

/-- C8 witness: the amended statement at a concrete fresh cache, where the
victim slot was the fresh entry. -/
theorem evict_and_replace_success_spec_witness :
    (cache1.evict_and_replace 5).2 = .ok () ∧
    ∃ e, (cache1.evict_and_replace 5).1.entries.get? cache1.fifoVictim =
        some e ∧ e.id = 5 ∧
      e.page.data = cache1.file_manager.fetch_page_data_from_disk 5 ∧
      e.valid = CacheEntry.new.valid := by
  have h := evict_and_replace_success_spec cache1 5
    ⟨rfl, by decide, by decide, rfl, Or.inl rfl⟩
    (by simp [cache1, Cache.new, fmConst])
  have hv : cache1.fifoVictim = 0 := Cache.fifoVictim_init cache1 rfl
  exact ⟨h.1, h.2 CacheEntry.new (by rw [hv]; rfl)⟩

/-- C8 counterexample: a successful `evict_and_replace(5)` on a fresh cache
leaves the victim slot's `valid` flag false, where the claim demands it be
set to true. -/
theorem evict_leaves_victim_invalid :
    (cache1.evict_and_replace 5).2 = .ok () ∧
    ((cache1.evict_and_replace 5).1.entries.get? 0).map CacheEntry.is_valid =
      some false := by
  have hwf : cache1.WF := ⟨rfl, by decide, by decide, rfl, Or.inl rfl⟩
  have hfm : (cache1.file_manager.fetch_page_data_from_disk 5).length =
      PAGE_SIZE := by
    simp [cache1, Cache.new, fmConst]
  have h := Cache.evict_fifo_spec cache1 5 hwf hfm
  have hv : cache1.fifoVictim = 0 := Cache.fifoVictim_init cache1 rfl
  refine ⟨h.1, ?_⟩
  have h2 := h.2 CacheEntry.new (by rw [hv]; rfl)
  rw [hv] at h2
  rw [h2]
  rfl

/-- C10: every successful `evict_and_replace(id)` leaves the victim slot's
page reporting `is_dirty() == true`: the eviction path loads the fetched
bytes through `write_at(0, data)`, which sets the dirty flag. -/
theorem evict_marks_victim_dirty (c : Cache) (id : PageId)
    (h : (c.evict_and_replace id).2 = .ok ()) :
    ((c.evict_and_replace id).1.entries.get? c.fifoVictim).map
      (fun e => e.page.is_dirty) = some true := by
  cases hp : c.policy
  case LFU =>
    have hx : (c.evict_and_replace id).2 = .error .Unknown := by
      unfold Cache.evict_and_replace
      rw [hp]
    rw [hx] at h
    exact Except.noConfusion h
  case LRU =>
    have hx : (c.evict_and_replace id).2 = .error .Unknown := by
      unfold Cache.evict_and_replace
      rw [hp]
    rw [hx] at h
    exact Except.noConfusion h
  case MRU =>
    have hx : (c.evict_and_replace id).2 = .error .Unknown := by
      unfold Cache.evict_and_replace
      rw [hp]
    rw [hx] at h
    exact Except.noConfusion h
  case FIFO =>
    rcases hget : c.entries.get? c.fifoVictim with _ | old
    · have hx : (c.evict_and_replace id).2 = .error .Unknown := by
        unfold Cache.evict_and_replace
        rw [hp]
        dsimp only
        rw [hget]
      rw [hx] at h
      exact Except.noConfusion h
    · rcases hw : (old.page.write_at 0
          (c.file_manager.fetch_page_data_from_disk id)).2 with e | u
      · have hx : (c.evict_and_replace id).2 =
            .error (cacheErrorOfPageError e) := by
          unfold Cache.evict_and_replace
          rw [hp]
          dsimp only
          rw [hget]
          dsimp only
          rw [hw]
        rw [hx] at h
        exact Except.noConfusion h
      · cases u
        have key : (c.evict_and_replace id).1.entries =
            c.entries.set c.fifoVictim
              { valid := old.valid, id := id,
                page := (old.page.write_at 0
                  (c.file_manager.fetch_page_data_from_disk id)).1 } := by
          unfold Cache.evict_and_replace
          rw [hp]
          dsimp only
          rw [hget]
          dsimp only
          rw [hw]
        obtain ⟨hlt, -⟩ := List.get?_eq_some.mp hget
        rw [key, List.get?_eq_getElem?, List.getElem?_set_self hlt]
        simp only [Option.map_some', Page.is_dirty]
        rw [Page.write_at_ok_dirty old.page 0 _ hw]

/-- C10 witness: the fresh slot that receives page 5 reports dirty. -/
theorem evict_marks_victim_dirty_witness :
    ((cache1.evict_and_replace 5).1.entries.get? cache1.fifoVictim).map
      (fun e => e.page.is_dirty) = some true :=
  evict_marks_victim_dirty cache1 5
    (Cache.evict_fifo_spec cache1 5
      ⟨rfl, by decide, by decide, rfl, Or.inl rfl⟩
      (by simp [cache1, Cache.new, fmConst])).1

end BPlus
